import Mathlib

/-!
Verification of the mascot-camera page (`src/app/page.tsx`).

The page keeps three pieces of state: a `Mascot` record (overlay position,
scale, gesture flags and baselines), a tri-state camera-permission flag
(`null` / `true` / `false`), and an optional captured image.  The touch
handlers, the capture pipeline and the download / retake actions are pure
state transformers once the browser event plumbing is stripped away; they
are embedded below over `ℝ` coordinates, with JavaScript `null` rendered as
`Option` and the truthiness test `if (mascot.initialDistance)` rendered as
"is `some d` with `d ≠ 0`".
-/

noncomputable section

/-- A planar touch point, carrying the `clientX` / `clientY` coordinates of
one contact. -/
structure Point where
  x : ℝ
  y : ℝ

/-- The `Mascot` state type of `page.tsx`: overlay centre position, scale
factor, pinch baseline distance (`initialDistance`, `null` when no pinch is
in progress), the two gesture flags, and the drag baseline point
(`lastPosition`). -/
structure Mascot where
  position : Point
  scale : ℝ
  initialDistance : Option ℝ
  isDragging : Bool
  isPinching : Bool
  lastPosition : Point

/-- The initial mascot state installed by `useState`: position (50, 50),
scale 0.5, no pinch baseline, no active gesture, drag baseline (0, 0). -/
def initialMascot : Mascot :=
  { position := ⟨50, 50⟩
    scale := 0.5
    initialDistance := none
    isDragging := false
    isPinching := false
    lastPosition := ⟨0, 0⟩ }

/-- `getDistance`: Euclidean distance between the first two touches,
`sqrt ((x2 - x1)^2 + (y2 - y1)^2)`; returns 0 when fewer than two touches
are supplied. -/
def getDistance : List Point → ℝ
  | t1 :: t2 :: _ => Real.sqrt ((t2.x - t1.x) ^ 2 + (t2.y - t1.y) ^ 2)
  | _ => 0

/-- `handleTouchStart`: with exactly one contact, set the drag flag and
record the contact as the drag baseline; with exactly two contacts, set the
pinch flag and record the inter-contact distance as the pinch baseline; any
other contact count leaves the state untouched. -/
def handleTouchStart (touches : List Point) (m : Mascot) : Mascot :=
  match touches with
  | [t] =>
      { m with isDragging := true, lastPosition := ⟨t.x, t.y⟩ }
  | [t1, t2] =>
      { m with isPinching := true, initialDistance := some (getDistance [t1, t2]) }
  | _ => m

/-- `handleTouchMove`: with one contact and the drag flag set, translate the
position by the delta between the contact and `lastPosition` and move the
baseline to the contact; with two contacts and the pinch flag set, multiply
the scale by `newDistance / initialDistance` and reset the baseline distance
to `newDistance`, but only when the stored baseline is truthy (present and
nonzero).  Each event handler invocation is atomic, so the `mascot` closure
value and the `prev` updater argument coincide here. -/
def handleTouchMove (touches : List Point) (m : Mascot) : Mascot :=
  match touches with
  | [t] =>
      if m.isDragging then
        let dx := t.x - m.lastPosition.x
        let dy := t.y - m.lastPosition.y
        { m with
            position := ⟨m.position.x + dx, m.position.y + dy⟩
            lastPosition := ⟨t.x, t.y⟩ }
      else m
  | [t1, t2] =>
      if m.isPinching then
        let newDistance := getDistance [t1, t2]
        match m.initialDistance with
        | some d =>
            if d = 0 then m
            else
              { m with
                  scale := m.scale * (newDistance / d)
                  initialDistance := some newDistance }
        | none => m
      else m
  | _ => m

/-- `handleTouchEnd`: unconditionally clear both gesture flags and the pinch
baseline distance. -/
def handleTouchEnd (m : Mascot) : Mascot :=
  { m with isDragging := false, isPinching := false, initialDistance := none }

/-- A touch event as delivered to the three handlers; each carries the list
of contacts active at delivery time (`e.touches`; for an end event these are
the contacts that remain, which the handler ignores). -/
inductive TEvent
  | touchStart (touches : List Point)
  | touchMove (touches : List Point)
  | touchEnd (touches : List Point)

/-- Dispatch one touch event to the corresponding handler. -/
def step (m : Mascot) : TEvent → Mascot
  | .touchStart ts => handleTouchStart ts m
  | .touchMove ts => handleTouchMove ts m
  | .touchEnd _ => handleTouchEnd m

/-- Run a sequence of touch events from a given mascot state. -/
def run (m : Mascot) (es : List TEvent) : Mascot :=
  es.foldl step m

/-- The contact list an event carries. -/
def eventTouches : TEvent → List Point
  | .touchStart ts => ts
  | .touchMove ts => ts
  | .touchEnd ts => ts

/-- The contacts active after a sequence of events (none before the first
event). -/
def lastTouches (es : List TEvent) : List Point :=
  (es.map eventTouches).getLastD []

/-- A run consisting only of single-touch move events, as during a drag. -/
def dragRun (m : Mascot) (ps : List Point) : Mascot :=
  ps.foldl (fun s p => handleTouchMove [p] s) m

/-- The per-event drag deltas: each move's contact minus the baseline in
force when it is processed (the baseline then advances to that contact). -/
def dragDeltas (base : Point) : List Point → List (ℝ × ℝ)
  | [] => []
  | p :: ps => (p.x - base.x, p.y - base.y) :: dragDeltas p ps

/-- Sum of the x components of a delta list. -/
def sumFst (l : List (ℝ × ℝ)) : ℝ :=
  (l.map Prod.fst).sum

/-- Sum of the y components of a delta list. -/
def sumSnd (l : List (ℝ × ℝ)) : ℝ :=
  (l.map Prod.snd).sum

/-- A run consisting only of two-touch move events, as during a pinch. -/
def pinchRun (m : Mascot) (tss : List (Point × Point)) : Mascot :=
  tss.foldl (fun s ts => handleTouchMove [ts.1, ts.2] s) m

/-- The distance reported for one two-touch move event. -/
def pairDist (ts : Point × Point) : ℝ :=
  getDistance [ts.1, ts.2]

/-- The per-event scale ratios `distance_i / distance_(i-1)` of a pinch,
starting from baseline distance `d0`. -/
def distRatios (d0 : ℝ) : List (Point × Point) → List ℝ
  | [] => []
  | ts :: rest => (pairDist ts / d0) :: distRatios (pairDist ts) rest

/-- The final distance of a pinch sequence (the baseline `d0` when the
sequence is empty). -/
def lastDist (d0 : ℝ) (tss : List (Point × Point)) : ℝ :=
  (tss.map pairDist).getLastD d0

/-- An on-screen bounding box as returned by `getBoundingClientRect`. -/
structure Rect where
  width : ℝ
  height : ℝ

/-- The mounted video element: its on-screen box and the identity of the
frame it currently shows. -/
structure VideoSurface where
  rect : Rect
  frame : ℕ

/-- The mounted overlay image element: its on-screen bounding box. -/
structure ImageSurface where
  rect : Rect

/-- The mounted canvas element; `getContext` may still return `null`. -/
structure CanvasSurface where
  contextAvailable : Bool

/-- The three refs `handleCapture` dereferences; `none` models an unmounted
element. -/
structure Refs where
  video : Option VideoSurface
  image : Option ImageSurface
  canvas : Option CanvasSurface

/-- One `drawImage(source, x, y, w, h)` call. -/
structure DrawCall where
  x : ℝ
  y : ℝ
  w : ℝ
  h : ℝ

/-- The content of the exported PNG data URL: the canvas dimensions, the
video frame drawn to fill them, and the overlay draw call. -/
structure CapturedPhoto where
  canvasWidth : ℝ
  canvasHeight : ℝ
  videoFrame : ℕ
  videoDraw : DrawCall
  overlayDraw : DrawCall

/-- The successful-capture composition of `handleCapture`: size the canvas
to the video box, draw the frame to fill it, then draw the overlay with
width and height `imageRect * scale` at origin `position - size / 2`. -/
def capturePhoto (video : VideoSurface) (image : ImageSurface) (m : Mascot) :
    CapturedPhoto :=
  let cw := video.rect.width
  let ch := video.rect.height
  let scale := m.scale
  let width := image.rect.width * scale
  let height := image.rect.height * scale
  let x := m.position.x - width / 2
  let y := m.position.y - height / 2
  { canvasWidth := cw
    canvasHeight := ch
    videoFrame := video.frame
    videoDraw := ⟨0, 0, cw, ch⟩
    overlayDraw := ⟨x, y, width, height⟩ }

/-- The page-level state: mascot, permission flag (`none` = pending), and
captured image. -/
structure PageState where
  mascot : Mascot
  permissionGranted : Option Bool
  capturedImage : Option CapturedPhoto

/-- `handleCapture`: when all three refs are mounted and a 2d context is
obtained, store the composed photo; otherwise do nothing. -/
def handleCapture (refs : Refs) (s : PageState) : PageState :=
  match refs.video, refs.image, refs.canvas with
  | some video, some image, some canvas =>
      if canvas.contextAvailable then
        { s with capturedImage := some (capturePhoto video image s.mascot) }
      else s
  | _, _, _ => s

/-- The synthetic link click `handleDownload` performs: the data URL it
saves and the fixed suggested filename. -/
structure SaveAction where
  href : CapturedPhoto
  filename : String

/-- `handleDownload`: when a captured image is present, trigger a save of it
under the fixed name; otherwise do nothing.  The page state is never
modified. -/
def handleDownload (s : PageState) : PageState × Option SaveAction :=
  match s.capturedImage with
  | some img => (s, some { href := img, filename := "mascot-photo.png" })
  | none => (s, none)

/-- `handleBackToCamera` ("retake"): clear the captured image only. -/
def handleBackToCamera (s : PageState) : PageState :=
  { s with capturedImage := none }

/-- The environment `setupCamera` runs against: whether
`navigator.mediaDevices.getUserMedia` exists, and whether the permission
request resolves with a stream. -/
structure CameraEnv where
  mediaDevicesAvailable : Bool
  getUserMediaSucceeds : Bool

/-- `setupCamera`'s one write to the permission flag: `false` when the API
is unsupported, `true` on a successful stream, `false` when the request
throws. -/
def setupCamera (env : CameraEnv) : Bool :=
  if !env.mediaDevicesAvailable then false
  else if env.getUserMediaSucceeds then true
  else false

/-- The successive values of `permissionGranted` over the page's lifetime:
`null` at mount, then the single value written by `setupCamera` (which runs
once, from the empty-dependency effect). -/
def permissionTrace (env : CameraEnv) : List (Option Bool) :=
  [none, some (setupCamera env)]

/-- The number of adjacent changes in a permission-value trace. -/
def changeCount (l : List (Option Bool)) : ℕ :=
  (l.zip l.tail).countP (fun p => decide (p.1 ≠ p.2))

/-- A concrete fully-mounted set of refs: a 400×300 video showing frame 7, a
100×80 overlay image, and a canvas with a 2d context. -/
def refsW : Refs :=
  { video := some ⟨⟨400, 300⟩, 7⟩
    image := some ⟨⟨100, 80⟩⟩
    canvas := some ⟨true⟩ }

/-- A concrete set of refs with nothing mounted. -/
def refsNone : Refs :=
  { video := none, image := none, canvas := none }

/-- A concrete page state: initial mascot, permission granted, no captured
image. -/
def pageW : PageState :=
  { mascot := initialMascot
    permissionGranted := some true
    capturedImage := none }

end

/-- Cons step of `getLastD` phrased through `getLast?.getD`, the form `simp`
normalises to. -/
theorem getLastD_cons_getD {α : Type} (b a : α) (l : List α) :
    (b :: l).getLast?.getD a = l.getLast?.getD b := by
  rw [← List.getLastD_eq_getLast?, ← List.getLastD_eq_getLast?, List.getLastD_cons]

/-- A single-touch move while the drag flag is set translates the position
by the delta against `lastPosition` and advances the baseline. -/
theorem handleTouchMove_drag (m : Mascot) (p : Point) (h : m.isDragging = true) :
    handleTouchMove [p] m =
      { m with
          position := ⟨m.position.x + (p.x - m.lastPosition.x),
                       m.position.y + (p.y - m.lastPosition.y)⟩
          lastPosition := ⟨p.x, p.y⟩ } := by
  simp [handleTouchMove, h]

/-- Running a drag accumulates the per-event deltas onto the position and
leaves the baseline at the last contact processed. -/
theorem dragRun_spec (ps : List Point) (m : Mascot) (h : m.isDragging = true) :
    (dragRun m ps).position.x = m.position.x + sumFst (dragDeltas m.lastPosition ps) ∧
    (dragRun m ps).position.y = m.position.y + sumSnd (dragDeltas m.lastPosition ps) ∧
    (dragRun m ps).lastPosition = ps.getLastD m.lastPosition := by
  induction ps generalizing m with
  | nil => simp [dragRun, dragDeltas, sumFst, sumSnd]
  | cons p ps ih =>
    have hstep := handleTouchMove_drag m p h
    have hflag : (handleTouchMove [p] m).isDragging = true := by rw [hstep]; exact h
    have hrest := ih (handleTouchMove [p] m) hflag
    have hrun : dragRun m (p :: ps) = dragRun (handleTouchMove [p] m) ps := by
      simp [dragRun]
    rw [hrun]
    rw [hstep] at hrest ⊢
    refine ⟨?_, ?_, ?_⟩
    · rw [hrest.1]
      simp [dragDeltas, sumFst]
      ring
    · rw [hrest.2.1]
      simp [dragDeltas, sumSnd]
      ring
    · rw [hrest.2.2]
      simp only [List.getLastD_eq_getLast?]
      exact (getLastD_cons_getD p m.lastPosition ps).symm

/-- The per-event drag deltas telescope: their sum depends only on the first
baseline and the last contact. -/
theorem dragDeltas_sum (ps : List Point) (base : Point) :
    sumFst (dragDeltas base ps) = (ps.getLastD base).x - base.x ∧
    sumSnd (dragDeltas base ps) = (ps.getLastD base).y - base.y := by
  induction ps generalizing base with
  | nil => simp [dragDeltas, sumFst, sumSnd]
  | cons p ps ih =>
    have := ih p
    have hcons := getLastD_cons_getD p base ps
    constructor
    · simp only [dragDeltas, sumFst, List.map_cons, List.sum_cons,
        List.getLastD_eq_getLast?] at *
      rw [this.1, hcons]; ring
    · simp only [dragDeltas, sumSnd, List.map_cons, List.sum_cons,
        List.getLastD_eq_getLast?] at *
      rw [this.2, hcons]; ring

/-- C1: a drag gesture — a one-contact touch-start followed by any sequence
of single-touch move events — leaves the overlay at its initial position
plus the sum of the per-event deltas against the successively updated
baseline; the baseline ends at the last contact, and the delta sum
telescopes to (last contact − start contact), so the translation is additive
and path-independent. -/
theorem c1_drag_translation_additive (m : Mascot) (p0 : Point) (ps : List Point) :
    (dragRun (handleTouchStart [p0] m) ps).position.x
        = m.position.x + sumFst (dragDeltas p0 ps) ∧
    (dragRun (handleTouchStart [p0] m) ps).position.y
        = m.position.y + sumSnd (dragDeltas p0 ps) ∧
    (dragRun (handleTouchStart [p0] m) ps).lastPosition = ps.getLastD p0 ∧
    sumFst (dragDeltas p0 ps) = (ps.getLastD p0).x - p0.x ∧
    sumSnd (dragDeltas p0 ps) = (ps.getLastD p0).y - p0.y := by
  have hstart : handleTouchStart [p0] m
      = { m with isDragging := true, lastPosition := ⟨p0.x, p0.y⟩ } := by
    simp [handleTouchStart]
  have hflag : (handleTouchStart [p0] m).isDragging = true := by rw [hstart]
  have hmain := dragRun_spec ps (handleTouchStart [p0] m) hflag
  have hsum := dragDeltas_sum ps p0
  rw [hstart] at hmain
  exact ⟨hmain.1, hmain.2.1, hmain.2.2, hsum.1, hsum.2⟩

/-- Square-root evaluation on a recognised Pythagorean pair. -/
theorem sqrt_sq_sum_eval (a b c : ℝ) (h : a ^ 2 + b ^ 2 = c ^ 2) (hc : 0 ≤ c) :
    Real.sqrt (a ^ 2 + b ^ 2) = c := by
  rw [h, Real.sqrt_sq hc]

/-- Distance between the concrete points (0,0) and (3,4). -/
theorem dist_0034 : getDistance [⟨0, 0⟩, ⟨3, 4⟩] = 5 := by
  simp only [getDistance]
  exact sqrt_sq_sum_eval _ _ 5 (by norm_num) (by norm_num)

/-- Distance between the concrete points (0,0) and (0,3). -/
theorem dist_0003 : getDistance [⟨0, 0⟩, ⟨0, 3⟩] = 3 := by
  simp only [getDistance]
  exact sqrt_sq_sum_eval _ _ 3 (by norm_num) (by norm_num)

/-- Two coincident contacts are at distance 0. -/
theorem getDistance_self (p : Point) : getDistance [p, p] = 0 := by
  simp [getDistance]

/-- `getDistance` is a real square root (or the default 0), hence never
negative. -/
theorem getDistance_nonneg (ts : List Point) : 0 ≤ getDistance ts := by
  rcases ts with _ | ⟨t1, _ | ⟨t2, rest⟩⟩
  · simp [getDistance]
  · simp [getDistance]
  · simp only [getDistance]
    exact Real.sqrt_nonneg _

/-- C5: a two-touch move whose stored pinch baseline is absent (`null`) or
zero leaves the overlay scale — indeed the whole mascot state — unchanged,
so the scale update never divides by zero or by an absent baseline. -/
theorem c5_zero_baseline_skips_scale (m : Mascot) (t1 t2 : Point)
    (h : m.initialDistance = none ∨ m.initialDistance = some 0) :
    (handleTouchMove [t1, t2] m).scale = m.scale ∧ handleTouchMove [t1, t2] m = m := by
  rcases h with h | h
  · cases hp : m.isPinching <;> simp [handleTouchMove, h, hp]
  · cases hp : m.isPinching <;> simp [handleTouchMove, h, hp]

/-- Witness for C5 at a concrete state with baseline `some 0` and a real
two-touch move. -/
theorem c5_zero_baseline_skips_scale_witness :
    (handleTouchMove [⟨0, 0⟩, ⟨3, 4⟩]
        { initialMascot with isPinching := true, initialDistance := some 0 }).scale
      = ({ initialMascot with isPinching := true, initialDistance := some 0 } : Mascot).scale ∧
    handleTouchMove [⟨0, 0⟩, ⟨3, 4⟩]
        { initialMascot with isPinching := true, initialDistance := some 0 }
      = { initialMascot with isPinching := true, initialDistance := some 0 } :=
  c5_zero_baseline_skips_scale _ ⟨0, 0⟩ ⟨3, 4⟩ (Or.inr rfl)

/-- The nonnegativity invariant actually maintained by the gesture state:
the scale and any stored baseline distance are nonnegative. -/
def scaleInv (m : Mascot) : Prop :=
  0 ≤ m.scale ∧ ∀ d : ℝ, m.initialDistance = some d → 0 ≤ d

/-- Every touch event preserves the nonnegativity invariant: the only scale
write multiplies by `newDistance / d` with both parts nonnegative, and the
only baseline writes store a `getDistance` value or clear it. -/
theorem step_scaleInv (m : Mascot) (e : TEvent) (h : scaleInv m) :
    scaleInv (step m e) := by
  obtain ⟨hs, hd⟩ := h
  cases e with
  | touchEnd ts =>
      exact ⟨hs, by simp [step, handleTouchEnd]⟩
  | touchStart ts =>
      rcases ts with _ | ⟨t1, _ | ⟨t2, _ | ⟨t3, rest⟩⟩⟩
      · exact ⟨hs, hd⟩
      · refine ⟨hs, ?_⟩
        simpa [step, handleTouchStart] using hd
      · refine ⟨hs, ?_⟩
        intro d hd2
        simp only [step, handleTouchStart, Option.some.injEq] at hd2
        rw [← hd2]
        exact getDistance_nonneg _
      · exact ⟨hs, hd⟩
  | touchMove ts =>
      rcases ts with _ | ⟨t1, _ | ⟨t2, _ | ⟨t3, rest⟩⟩⟩
      · exact ⟨hs, hd⟩
      · show scaleInv (handleTouchMove [t1] m)
        cases hflag : m.isDragging
        · have heq : handleTouchMove [t1] m = m := by simp [handleTouchMove, hflag]
          rw [heq]; exact ⟨hs, hd⟩
        · rw [handleTouchMove_drag m t1 hflag]
          exact ⟨hs, hd⟩
      · show scaleInv (handleTouchMove [t1, t2] m)
        cases hflag : m.isPinching
        · have heq : handleTouchMove [t1, t2] m = m := by simp [handleTouchMove, hflag]
          rw [heq]; exact ⟨hs, hd⟩
        · cases hID : m.initialDistance with
          | none =>
              have heq : handleTouchMove [t1, t2] m = m := by
                simp [handleTouchMove, hflag, hID]
              rw [heq]; exact ⟨hs, hd⟩
          | some d =>
              by_cases hd0 : d = 0
              · have heq : handleTouchMove [t1, t2] m = m := by
                  simp [handleTouchMove, hflag, hID, hd0]
                rw [heq]; exact ⟨hs, hd⟩
              · have heq : handleTouchMove [t1, t2] m =
                    { m with
                        scale := m.scale * (getDistance [t1, t2] / d)
                        initialDistance := some (getDistance [t1, t2]) } := by
                  simp [handleTouchMove, hflag, hID, hd0]
                rw [heq]
                refine ⟨mul_nonneg hs (div_nonneg (getDistance_nonneg _) (hd d hID)), ?_⟩
                intro d2 hd2
                have hdd : getDistance [t1, t2] = d2 := by simpa using hd2
                rw [← hdd]
                exact getDistance_nonneg _
      · exact ⟨hs, hd⟩

/-- Running any event sequence preserves the nonnegativity invariant. -/
theorem run_scaleInv (es : List TEvent) (m : Mascot) (h : scaleInv m) :
    scaleInv (run m es) := by
  induction es generalizing m with
  | nil => simpa [run] using h
  | cons e es ih =>
      have hrun : run m (e :: es) = run (step m e) es := by simp [run]
      rw [hrun]
      exact ih (step m e) (step_scaleInv m e h)

/-- C3 counterexample: from the initial state, a two-touch start at (0,0)
and (3,4) followed by a two-touch move with both contacts at (1,1) drives
the scale to exactly 0, so the scale does not stay strictly positive. -/
theorem c3_counterexample :
    ¬ (∀ es : List TEvent, 0 < (run initialMascot es).scale) := by
  intro h
  have hs := h [TEvent.touchStart [⟨0, 0⟩, ⟨3, 4⟩], TEvent.touchMove [⟨1, 1⟩, ⟨1, 1⟩]]
  have hval :
      (run initialMascot
        [TEvent.touchStart [⟨0, 0⟩, ⟨3, 4⟩], TEvent.touchMove [⟨1, 1⟩, ⟨1, 1⟩]]).scale = 0 := by
    have h1 :
        run initialMascot
            [TEvent.touchStart [⟨0, 0⟩, ⟨3, 4⟩], TEvent.touchMove [⟨1, 1⟩, ⟨1, 1⟩]]
          = handleTouchMove [⟨1, 1⟩, ⟨1, 1⟩]
              (handleTouchStart [⟨0, 0⟩, ⟨3, 4⟩] initialMascot) := rfl
    have h2 : handleTouchStart [⟨0, 0⟩, ⟨3, 4⟩] initialMascot
        = { initialMascot with isPinching := true, initialDistance := some 5 } := by
      simp [handleTouchStart, dist_0034]
    rw [h1, h2]
    have h3 : getDistance [(⟨1, 1⟩ : Point), ⟨1, 1⟩] = 0 := getDistance_self _
    simp [handleTouchMove, initialMascot, h3]
  rw [hval] at hs
  exact lt_irrefl 0 hs

/-- C3 (amended): from the initial state (scale 0.5), after every sequence
of touch events the scale remains nonnegative; strict positivity fails
because a two-touch move reporting coincident contacts multiplies the scale
by zero. -/
theorem c3_scale_nonneg (es : List TEvent) : 0 ≤ (run initialMascot es).scale :=
  (run_scaleInv es initialMascot
    ⟨by norm_num [initialMascot], by simp [initialMascot]⟩).1

/-- C4 counterexample: a one-contact start (drag begins) followed by a
two-contact start (pinch begins) reaches a state in which `isDragging` and
`isPinching` are both set while two contacts are active, so the drag flag is
not restricted to one-contact phases and the two gestures' flags are not
mutually exclusive. -/
theorem c4_counterexample :
    ¬ (∀ es : List TEvent,
        ((run initialMascot es).isDragging = true → (lastTouches es).length = 1) ∧
        ((run initialMascot es).isPinching = true → (lastTouches es).length = 2) ∧
        ¬((run initialMascot es).isDragging = true ∧
          (run initialMascot es).isPinching = true)) := by
  intro h
  have h2 := h [TEvent.touchStart [⟨0, 0⟩], TEvent.touchStart [⟨0, 0⟩, ⟨3, 4⟩]]
  have hD :
      (run initialMascot
        [TEvent.touchStart [⟨0, 0⟩], TEvent.touchStart [⟨0, 0⟩, ⟨3, 4⟩]]).isDragging
        = true := by
    simp [run, step, handleTouchStart, initialMascot]
  have hP :
      (run initialMascot
        [TEvent.touchStart [⟨0, 0⟩], TEvent.touchStart [⟨0, 0⟩, ⟨3, 4⟩]]).isPinching
        = true := by
    simp [run, step, handleTouchStart, initialMascot]
  exact h2.2.2 ⟨hD, hP⟩

/-- C4 (amended): although the two gesture flags can be simultaneously set,
the effect of any single move event is exclusively one gesture: the position
changes only on a one-contact event with the drag flag set, the scale
changes only on a two-contact event with the pinch flag set, and no single
event changes both. -/
theorem c4_move_effect_exclusive (m : Mascot) (ts : List Point) :
    ((handleTouchMove ts m).position = m.position ∨
      (ts.length = 1 ∧ m.isDragging = true)) ∧
    ((handleTouchMove ts m).scale = m.scale ∨
      (ts.length = 2 ∧ m.isPinching = true)) ∧
    ((handleTouchMove ts m).position = m.position ∨
      (handleTouchMove ts m).scale = m.scale) := by
  rcases ts with _ | ⟨t1, _ | ⟨t2, _ | ⟨t3, rest⟩⟩⟩
  · exact ⟨Or.inl rfl, Or.inl rfl, Or.inl rfl⟩
  · cases hflag : m.isDragging
    · have heq : handleTouchMove [t1] m = m := by simp [handleTouchMove, hflag]
      rw [heq]
      exact ⟨Or.inl rfl, Or.inl rfl, Or.inl rfl⟩
    · rw [handleTouchMove_drag m t1 hflag]
      exact ⟨Or.inr ⟨rfl, rfl⟩, Or.inl rfl, Or.inr rfl⟩
  · cases hflag : m.isPinching
    · have heq : handleTouchMove [t1, t2] m = m := by simp [handleTouchMove, hflag]
      rw [heq]
      exact ⟨Or.inl rfl, Or.inl rfl, Or.inl rfl⟩
    · cases hID : m.initialDistance with
      | none =>
          have heq : handleTouchMove [t1, t2] m = m := by
            simp [handleTouchMove, hflag, hID]
          rw [heq]
          exact ⟨Or.inl rfl, Or.inl rfl, Or.inl rfl⟩
      | some d =>
          by_cases hd0 : d = 0
          · have heq : handleTouchMove [t1, t2] m = m := by
              simp [handleTouchMove, hflag, hID, hd0]
            rw [heq]
            exact ⟨Or.inl rfl, Or.inl rfl, Or.inl rfl⟩
          · have heq : handleTouchMove [t1, t2] m =
                { m with
                    scale := m.scale * (getDistance [t1, t2] / d)
                    initialDistance := some (getDistance [t1, t2]) } := by
              simp [handleTouchMove, hflag, hID, hd0]
            rw [heq]
            exact ⟨Or.inl rfl, Or.inr ⟨rfl, rfl⟩, Or.inl rfl⟩
  · exact ⟨Or.inl rfl, Or.inl rfl, Or.inl rfl⟩

/-- A two-touch move with the pinch flag set and a truthy baseline `d`
multiplies the scale by `newDistance / d` and resets the baseline to the
new distance. -/
theorem handleTouchMove_pinch (m : Mascot) (t1 t2 : Point) (d : ℝ)
    (hp : m.isPinching = true) (hd : m.initialDistance = some d) (h0 : d ≠ 0) :
    handleTouchMove [t1, t2] m =
      { m with
          scale := m.scale * (getDistance [t1, t2] / d)
          initialDistance := some (getDistance [t1, t2]) } := by
  simp [handleTouchMove, hp, hd, h0]

/-- C2 (amended): for a pinch whose baseline distance and per-event
distances are all nonzero, the scale after N two-touch move events is the
initial scale times the product of the successive distance ratios, and that
product telescopes to (final distance / baseline distance); the unamended
claim fails when some reported distance is zero, because the zero is written
back as the new baseline and later events are skipped against it. -/
theorem c2_pinch_scale_product (m : Mascot) (tss : List (Point × Point)) (d0 : ℝ)
    (hp : m.isPinching = true) (hd : m.initialDistance = some d0) (h0 : d0 ≠ 0)
    (hnz : ∀ ts ∈ tss, pairDist ts ≠ 0) :
    (pinchRun m tss).scale = m.scale * (distRatios d0 tss).prod ∧
    (pinchRun m tss).scale = m.scale * (lastDist d0 tss / d0) := by
  induction tss generalizing m d0 with
  | nil =>
      constructor
      · simp [pinchRun, distRatios]
      · simp [pinchRun, lastDist, div_self h0]
  | cons ts rest ih =>
      have hts : pairDist ts ≠ 0 := hnz ts (by simp)
      have hstep := handleTouchMove_pinch m ts.1 ts.2 d0 hp hd h0
      have hp2 : (handleTouchMove [ts.1, ts.2] m).isPinching = true := by
        rw [hstep]; exact hp
      have hd2 : (handleTouchMove [ts.1, ts.2] m).initialDistance
          = some (pairDist ts) := by
        rw [hstep]; rfl
      have hrest := ih (handleTouchMove [ts.1, ts.2] m) (pairDist ts) hp2 hd2 hts
        (fun x hx => hnz x (by simp [hx]))
      have hrun : pinchRun m (ts :: rest)
          = pinchRun (handleTouchMove [ts.1, ts.2] m) rest := by
        simp [pinchRun]
      have hscale2 : (handleTouchMove [ts.1, ts.2] m).scale
          = m.scale * (pairDist ts / d0) := by
        rw [hstep]; rfl
      have hlast : lastDist d0 (ts :: rest) = lastDist (pairDist ts) rest := by
        simp only [lastDist, List.map_cons, List.getLastD_eq_getLast?]
        exact getLastD_cons_getD (pairDist ts) d0 (rest.map pairDist)
      constructor
      · rw [hrun, hrest.1, hscale2]
        simp only [distRatios, List.prod_cons]
        ring
      · rw [hrun, hrest.2, hscale2, hlast]
        field_simp
        ring

/-- Witness for C2 at a concrete pinch: baseline 5, one move with contacts
(0,0) and (0,3). -/
theorem c2_pinch_scale_product_witness :
    (pinchRun { initialMascot with isPinching := true, initialDistance := some 5 }
        [(⟨0, 0⟩, ⟨0, 3⟩)]).scale
      = ({ initialMascot with
            isPinching := true, initialDistance := some 5 } : Mascot).scale
          * (distRatios 5 [(⟨0, 0⟩, ⟨0, 3⟩)]).prod ∧
    (pinchRun { initialMascot with isPinching := true, initialDistance := some 5 }
        [(⟨0, 0⟩, ⟨0, 3⟩)]).scale
      = ({ initialMascot with
            isPinching := true, initialDistance := some 5 } : Mascot).scale
          * (lastDist 5 [(⟨0, 0⟩, ⟨0, 3⟩)] / 5) :=
  c2_pinch_scale_product _ _ 5 rfl rfl (by norm_num)
    (by
      intro ts hts
      simp only [List.mem_singleton] at hts
      subst hts
      show getDistance [⟨0, 0⟩, ⟨0, 3⟩] ≠ 0
      rw [dist_0003]
      norm_num)

/-- C2 counterexample: with baseline 5, a move reporting two coincident
contacts (distance 0) followed by a move at distance 3 ends with scale 0,
while the compressed formulation `initial scale × (final / initial)` gives
0.5 × (3/5) = 3/10; the two formulations do not always agree, so the claim
fails without a nonzero-distance hypothesis. -/
theorem c2_counterexample :
    ¬ (∀ (m : Mascot) (tss : List (Point × Point)) (d0 : ℝ),
        m.isPinching = true → m.initialDistance = some d0 →
        ((pinchRun m tss).scale = m.scale * (distRatios d0 tss).prod ∧
         (pinchRun m tss).scale = m.scale * (lastDist d0 tss / d0))) := by
  intro h
  have h2 := (h { initialMascot with isPinching := true, initialDistance := some 5 }
      [(⟨1, 1⟩, ⟨1, 1⟩), (⟨0, 0⟩, ⟨0, 3⟩)] 5 rfl rfl).2
  have hstep1 : handleTouchMove [⟨1, 1⟩, ⟨1, 1⟩]
      { initialMascot with isPinching := true, initialDistance := some 5 }
      = { initialMascot with
            isPinching := true, scale := 0, initialDistance := some 0 } := by
    rw [handleTouchMove_pinch _ _ _ 5 rfl rfl (by norm_num)]
    rw [getDistance_self]
    simp [initialMascot]
  have hstep2 : handleTouchMove [⟨0, 0⟩, ⟨0, 3⟩]
      { initialMascot with isPinching := true, scale := 0, initialDistance := some 0 }
      = { initialMascot with
            isPinching := true, scale := 0, initialDistance := some 0 } := by
    simp [handleTouchMove]
  have hrunEq : pinchRun { initialMascot with isPinching := true, initialDistance := some 5 }
      [(⟨1, 1⟩, ⟨1, 1⟩), (⟨0, 0⟩, ⟨0, 3⟩)]
      = handleTouchMove [⟨0, 0⟩, ⟨0, 3⟩] (handleTouchMove [⟨1, 1⟩, ⟨1, 1⟩]
          { initialMascot with isPinching := true, initialDistance := some 5 }) := rfl
  have hrun : (pinchRun { initialMascot with isPinching := true, initialDistance := some 5 }
      [(⟨1, 1⟩, ⟨1, 1⟩), (⟨0, 0⟩, ⟨0, 3⟩)]).scale = 0 := by
    rw [hrunEq, hstep1, hstep2]
  have hlast : lastDist 5 [(⟨1, 1⟩, ⟨1, 1⟩), (⟨0, 0⟩, ⟨0, 3⟩)] = 3 := by
    have : lastDist 5 [(⟨1, 1⟩, ⟨1, 1⟩), (⟨0, 0⟩, ⟨0, 3⟩)]
        = pairDist (⟨0, 0⟩, ⟨0, 3⟩) := by
      simp [lastDist]
    rw [this]
    show getDistance [⟨0, 0⟩, ⟨0, 3⟩] = 3
    exact dist_0003
  rw [hrun, hlast] at h2
  simp [initialMascot] at h2
  norm_num at h2

/-- C6: the permission flag starts pending (`null`) and is written exactly
once by `setupCamera`, to granted exactly when the media-devices API exists
and the stream request succeeds and to denied otherwise; the trace never
changes again and never returns to pending. -/
theorem c6_permission_single_transition (env : CameraEnv) :
    (permissionTrace env).head? = some none ∧
    (permissionTrace env).tail = [some (setupCamera env)] ∧
    changeCount (permissionTrace env) = 1 ∧
    (setupCamera env = true ↔
      env.mediaDevicesAvailable = true ∧ env.getUserMediaSucceeds = true) := by
  refine ⟨rfl, rfl, ?_, ?_⟩
  · simp [changeCount, permissionTrace]
  · cases hm : env.mediaDevicesAvailable <;> cases hg : env.getUserMediaSucceeds <;>
      simp [setupCamera, hm, hg]

/-- C7: with all surfaces mounted, capture stores a photo whose overlay draw
has width and height equal to the overlay's bounding box times the current
scale and whose origin is `position − size / 2` in each axis, so the overlay
is centred at the stored position point. -/
theorem c7_capture_overlay_geometry (refs : Refs) (s : PageState)
    (v : VideoSurface) (img : ImageSurface) (cv : CanvasSurface)
    (hv : refs.video = some v) (hi : refs.image = some img)
    (hc : refs.canvas = some cv) (hctx : cv.contextAvailable = true) :
    ∃ p : CapturedPhoto,
      (handleCapture refs s).capturedImage = some p ∧
      p.overlayDraw.w = img.rect.width * s.mascot.scale ∧
      p.overlayDraw.h = img.rect.height * s.mascot.scale ∧
      p.overlayDraw.x = s.mascot.position.x - img.rect.width * s.mascot.scale / 2 ∧
      p.overlayDraw.y = s.mascot.position.y - img.rect.height * s.mascot.scale / 2 ∧
      p.overlayDraw.x + p.overlayDraw.w / 2 = s.mascot.position.x ∧
      p.overlayDraw.y + p.overlayDraw.h / 2 = s.mascot.position.y := by
  obtain ⟨rv, ri, rc⟩ := refs
  simp only at hv hi hc
  subst hv; subst hi; subst hc
  refine ⟨capturePhoto v img s.mascot, ?_, rfl, rfl, rfl, rfl, ?_, ?_⟩
  · simp [handleCapture, hctx]
  · show s.mascot.position.x - img.rect.width * s.mascot.scale / 2
        + img.rect.width * s.mascot.scale / 2 = s.mascot.position.x
    ring
  · show s.mascot.position.y - img.rect.height * s.mascot.scale / 2
        + img.rect.height * s.mascot.scale / 2 = s.mascot.position.y
    ring

/-- Witness for C7 at the concrete mounted refs and page state. -/
theorem c7_capture_overlay_geometry_witness :
    ∃ p : CapturedPhoto,
      (handleCapture refsW pageW).capturedImage = some p ∧
      p.overlayDraw.w = (⟨⟨100, 80⟩⟩ : ImageSurface).rect.width * pageW.mascot.scale ∧
      p.overlayDraw.h = (⟨⟨100, 80⟩⟩ : ImageSurface).rect.height * pageW.mascot.scale ∧
      p.overlayDraw.x = pageW.mascot.position.x
          - (⟨⟨100, 80⟩⟩ : ImageSurface).rect.width * pageW.mascot.scale / 2 ∧
      p.overlayDraw.y = pageW.mascot.position.y
          - (⟨⟨100, 80⟩⟩ : ImageSurface).rect.height * pageW.mascot.scale / 2 ∧
      p.overlayDraw.x + p.overlayDraw.w / 2 = pageW.mascot.position.x ∧
      p.overlayDraw.y + p.overlayDraw.h / 2 = pageW.mascot.position.y :=
  c7_capture_overlay_geometry refsW pageW ⟨⟨400, 300⟩, 7⟩ ⟨⟨100, 80⟩⟩ ⟨true⟩
    rfl rfl rfl rfl

/-- C8: retake clears the captured image and changes nothing else (mascot
and permission are untouched), and with the surfaces unchanged a
capture–retake–capture round trip reproduces the same captured image. -/
theorem c8_retake_round_trip (refs : Refs) (s : PageState)
    (v : VideoSurface) (img : ImageSurface) (cv : CanvasSurface)
    (hv : refs.video = some v) (hi : refs.image = some img)
    (hc : refs.canvas = some cv) (hctx : cv.contextAvailable = true) :
    (handleBackToCamera s).capturedImage = none ∧
    (handleBackToCamera s).mascot = s.mascot ∧
    (handleBackToCamera s).permissionGranted = s.permissionGranted ∧
    (handleCapture refs (handleBackToCamera (handleCapture refs s))).capturedImage
      = (handleCapture refs s).capturedImage := by
  obtain ⟨rv, ri, rc⟩ := refs
  simp only at hv hi hc
  subst hv; subst hi; subst hc
  refine ⟨rfl, rfl, rfl, ?_⟩
  simp [handleCapture, handleBackToCamera, hctx]

/-- Witness for C8 at the concrete mounted refs and page state. -/
theorem c8_retake_round_trip_witness :
    (handleBackToCamera pageW).capturedImage = none ∧
    (handleBackToCamera pageW).mascot = pageW.mascot ∧
    (handleBackToCamera pageW).permissionGranted = pageW.permissionGranted ∧
    (handleCapture refsW (handleBackToCamera (handleCapture refsW pageW))).capturedImage
      = (handleCapture refsW pageW).capturedImage :=
  c8_retake_round_trip refsW pageW ⟨⟨400, 300⟩, 7⟩ ⟨⟨100, 80⟩⟩ ⟨true⟩
    rfl rfl rfl rfl

/-- C9: when the video, image or canvas ref is unmounted, capture is a
no-op: the whole page state, captured image included, is returned exactly as
it was. -/
theorem c9_capture_noop_unmounted (refs : Refs) (s : PageState)
    (h : refs.video = none ∨ refs.image = none ∨ refs.canvas = none) :
    handleCapture refs s = s := by
  obtain ⟨rv, ri, rc⟩ := refs
  simp only at h
  rcases h with h | h | h
  · subst h
    cases ri <;> cases rc <;> rfl
  · subst h
    cases rv <;> cases rc <;> rfl
  · subst h
    cases rv <;> cases ri <;> rfl

/-- Witness for C9 with nothing mounted. -/
theorem c9_capture_noop_unmounted_witness :
    handleCapture refsNone pageW = pageW :=
  c9_capture_noop_unmounted refsNone pageW (Or.inl rfl)

/-- C10: download never modifies the page state, and it triggers a save
action exactly when a captured image is present. -/
theorem c10_download_iff_captured (s : PageState) :
    (handleDownload s).1 = s ∧
    (handleDownload s).2.isSome = s.capturedImage.isSome := by
  cases h : s.capturedImage <;> simp [handleDownload, h]
